import Mathlib

/-!
Verification development for the LLMRAG repository.

The definitions below are a shallow embedding of the repository code:
`extract_version`, `load_documents` and `ingest_documents` come from
`src/ingest.py`; the retrieval engine (`RAGProvider.query` and its
latest-version tagging loop) comes from `src/rag_engine.py`; the HTTP
response construction comes from `src/api.py` (`query_rag`).
External collaborators (the vector index, the language model, the
document parsers, the text splitter) are modelled as explicit data or
function parameters, following the interface contracts the code uses.
-/

/-! ### Version resolver: `extract_version` from `src/ingest.py`

The Python code runs the regular expression
`_v(\d+)(?:\.[^.]+)?$` with `re.search` over the filename and returns
the captured integer, defaulting to 1 when there is no match.
`re.search` tries each start position from the left; at a given start
the pattern requires a literal underscore and letter v, then a maximal
run of digits (no backtracking can shorten it, because the optional
tail cannot begin with a digit or a dollar-anchor position).
Python semantics modelled exactly: `\d` matches any Unicode decimal
digit (category Nd, the same set `int()` parses, each block a
contiguous run of ten code points from its zero digit); the
unanchored-mode `$` matches at the end of the string or just before
one trailing newline; and the negated class `[^.]` does match a
newline. So after the digit run the remainder must be empty, a lone
newline, or a dot followed by a nonempty dot-free run reaching a
dollar position (equivalently, by greedy matching and backtracking of
`[^.]+`, a nonempty dot-free remainder, newlines included). -/

/-- The zero digits of the contiguous ten-code-point Nd blocks of
Unicode 15, the category that both Python `\d` (str patterns) and
`int()` accept. -/
def ndZeros : List Nat :=
  [0x30, 0x660, 0x6F0, 0x7C0, 0x966, 0x9E6, 0xA66, 0xAE6, 0xB66,
   0xBE6, 0xC66, 0xCE6, 0xD66, 0xDE6, 0xE50, 0xED0, 0xF20, 0x1040,
   0x1090, 0x17E0, 0x1810, 0x1946, 0x19D0, 0x1A80, 0x1A90, 0x1B50,
   0x1BB0, 0x1C40, 0x1C50, 0xA620, 0xA8D0, 0xA900, 0xA9D0, 0xA9F0,
   0xAA50, 0xABF0, 0xFF10, 0x104A0, 0x10D30, 0x11066, 0x110F0,
   0x11136, 0x111D0, 0x112F0, 0x11450, 0x114D0, 0x11650, 0x116C0,
   0x11730, 0x118E0, 0x11950, 0x11C50, 0x11D50, 0x11DA0, 0x11F50,
   0x16A60, 0x16AC0, 0x16B50, 0x1D7CE, 0x1D7D8, 0x1D7E2, 0x1D7EC,
   0x1D7F6, 0x1E140, 0x1E2F0, 0x1E4F0, 0x1E950, 0x1FBF0]

/-- Decimal value of a Unicode decimal digit, `none` for any other
character. -/
def pyDigitVal (c : Char) : Option Nat :=
  match ndZeros.find? (fun z => z ≤ c.toNat && c.toNat ≤ z + 9) with
  | some z => some (c.toNat - z)
  | none => none

/-- Python `\d` on one character. -/
def pyIsDigit (c : Char) : Bool := (pyDigitVal c).isSome

/-- Value of the digit run, as Python `int()` computes it. -/
def digitsToNat (ds : List Char) : Nat :=
  ds.foldl (fun n c => 10 * n + (pyDigitVal c).getD 0) 0

/-- Python `$` outside MULTILINE mode: the remainder to the end of
the string is empty, or is exactly one newline. -/
def endOk (l : List Char) : Bool :=
  l.isEmpty || l == ['\n']

/-- The tail of the pattern after the digit run: a dollar position
directly, or the optional extension group (a dot, then a nonempty run
without further dots — `[^.]` includes newlines — reaching a dollar
position). -/
def extOk (l : List Char) : Bool :=
  endOk l ||
  (l.head? == some '.' && !l.tail.isEmpty && l.tail.all (fun d => d ≠ '.'))

/-- Attempt of the anchored pattern at one start position. -/
def matchAt (l : List Char) : Option Nat :=
  match l with
  | a :: b :: rest =>
    if a = '_' then
      if b = 'v' then
        let ds := rest.takeWhile pyIsDigit
        let rem := rest.dropWhile pyIsDigit
        if ds = [] then none
        else if extOk rem then some (digitsToNat ds) else none
      else none
    else none
  | _ => none

/-- `re.search`: try each start position from the left. -/
def searchFrom (l : List Char) : Option Nat :=
  match l with
  | [] => none
  | _ :: cs =>
    match matchAt l with
    | some v => some v
    | none => searchFrom cs

/-- `extract_version` from `src/ingest.py`: regex capture if the
pattern matches, otherwise the default version 1. -/
def extract_version (s : String) : Nat :=
  (searchFrom s.data).getD 1

/-- Spec-side description of a match: the name decomposes into a
prefix, an underscore, the letter v, a nonempty run of Unicode
decimal digits, and a tail the anchored pattern accepts: nothing, a
lone trailing newline, or one dot-led extension free of further dots
ending at a dollar position. -/
def SuffixMatch (s a ds ext2 : List Char) : Prop :=
  s = a ++ '_' :: 'v' :: (ds ++ ext2) ∧ ds ≠ [] ∧
    (∀ c ∈ ds, pyIsDigit c = true) ∧ extOk ext2 = true

lemma extOk_head_not_digit (r : List Char) (hex : extOk r = true) :
    ∀ c, r.head? = some c → pyIsDigit c = false := by
  intro c hc
  cases r with
  | nil => simp at hc
  | cons e es =>
    simp only [List.head?_cons, Option.some.injEq] at hc
    subst hc
    unfold extOk endOk at hex
    simp only [Bool.or_eq_true, Bool.and_eq_true] at hex
    rcases hex with (h2 | h2) | ⟨⟨h1, _⟩, _⟩
    · simp at h2
    · have hl : e :: es = ['\n'] := eq_of_beq h2
      have he : e = '\n' := (List.cons.injEq _ _ _ _).mp hl |>.1
      subst he
      decide
    · have h2 : (e :: es).head? = some '.' := eq_of_beq h1
      simp only [List.head?_cons, Option.some.injEq] at h2
      subst h2
      decide

lemma takeWhile_append_of_all {p : Char → Bool} (ds ext2 : List Char)
    (hds : ∀ c ∈ ds, p c = true)
    (hext : ∀ c, ext2.head? = some c → p c = false) :
    (ds ++ ext2).takeWhile p = ds ∧ (ds ++ ext2).dropWhile p = ext2 := by
  induction ds with
  | nil =>
    cases ext2 with
    | nil => simp [List.takeWhile, List.dropWhile]
    | cons c cs =>
      have hc : p c = false := hext c rfl
      simp [List.takeWhile, List.dropWhile, hc]
  | cons d ds ih =>
    have hd : p d = true := hds d (by simp)
    have ih2 := ih (fun c hc => hds c (by simp [hc]))
    simp [List.takeWhile, List.dropWhile, hd, ih2.1, ih2.2]

lemma matchAt_some_iff (l : List Char) (v : Nat) :
    matchAt l = some v ↔
      ∃ ds ext2, l = '_' :: 'v' :: (ds ++ ext2) ∧ ds ≠ [] ∧
        (∀ c ∈ ds, pyIsDigit c = true) ∧ extOk ext2 = true ∧
        v = digitsToNat ds := by
  constructor
  · intro h
    cases l with
    | nil => simp [matchAt] at h
    | cons a t =>
      cases t with
      | nil => simp [matchAt] at h
      | cons b rest =>
        by_cases ha : a = '_'
        · by_cases hb : b = 'v'
          · subst ha; subst hb
            simp only [matchAt, if_pos rfl] at h
            by_cases hds : rest.takeWhile pyIsDigit = []
            · simp [hds] at h
            · by_cases hex : extOk (rest.dropWhile pyIsDigit) = true
              · simp [hds, hex] at h
                refine ⟨rest.takeWhile pyIsDigit, rest.dropWhile pyIsDigit,
                  ?_, hds, ?_, hex, h.symm⟩
                · simp [List.takeWhile_append_dropWhile]
                · intro c hc
                  exact List.mem_takeWhile_imp hc
              · simp [hds, hex] at h
          · simp [matchAt, if_neg hb] at h
        · simp [matchAt, if_neg ha] at h
  · rintro ⟨ds, ext2, hl, hne, hdig, hex, hv⟩
    subst hl
    have hhead : ∀ c, ext2.head? = some c → pyIsDigit c = false :=
      extOk_head_not_digit ext2 hex
    have hsplit := takeWhile_append_of_all (p := pyIsDigit) ds ext2 hdig hhead
    simp only [matchAt, if_pos rfl, hsplit.1, hsplit.2]
    simp [hne, hex, hv]

lemma searchFrom_none_no_match (l : List Char) (h : searchFrom l = none) :
    ∀ a rest, l = a ++ rest → matchAt rest = none := by
  induction l with
  | nil =>
    intro a rest heq
    have : rest = [] := (List.append_eq_nil.mp heq.symm).2
    subst this
    simp [matchAt]
  | cons c cs ih =>
    intro a rest heq
    simp only [searchFrom] at h
    rcases hm : matchAt (c :: cs) with _ | v
    · rw [hm] at h
      cases a with
      | nil =>
        simp at heq
        subst heq
        exact hm
      | cons x xs =>
        simp at heq
        exact ih h xs rest heq.2
    · rw [hm] at h
      exact absurd h (by simp)

lemma searchFrom_some_match (l : List Char) (v : Nat)
    (h : searchFrom l = some v) :
    ∃ a rest, l = a ++ rest ∧ matchAt rest = some v := by
  induction l with
  | nil => simp [searchFrom] at h
  | cons c cs ih =>
    simp only [searchFrom] at h
    rcases hm : matchAt (c :: cs) with _ | w
    · rw [hm] at h
      obtain ⟨a, rest, heq, hmatch⟩ := ih h
      exact ⟨c :: a, rest, by simp [heq], hmatch⟩
    · rw [hm] at h
      simp at h
      subst h
      exact ⟨[], c :: cs, by simp, hm⟩

/-- Claim C2 (amended): for every filename, if the name admits a
suffix decomposition of the form underscore, v, a nonempty run of
Unicode decimal digits, then an optional single extension and an
optional single trailing newline (the dollar-anchor tolerance), then
`extract_version` returns the integer parsed from the digit run of
such a decomposition; otherwise it returns 1. The function is total,
so it never raises; its result is a natural number, which can be 0
(for an all-zero digit run) rather than always being at least 1.
Concretely, "policy_v3.pdf" gives 3, "policy.pdf" gives 1,
"policy_v03.txt" gives 3, a name with one trailing newline after the
digits gives the digits, and an Arabic-Indic digit counts as a
digit. -/
theorem extract_version_amended :
    (∀ s : String,
      (∃ a ds ext2, SuffixMatch s.data a ds ext2 ∧
        extract_version s = digitsToNat ds) ∨
      ((¬ ∃ a ds ext2, SuffixMatch s.data a ds ext2) ∧
        extract_version s = 1)) ∧
    extract_version "policy_v3.pdf" = 3 ∧
    extract_version "policy.pdf" = 1 ∧
    extract_version "policy_v03.txt" = 3 ∧
    extract_version "policy_v3\n" = 3 ∧
    extract_version "policy_v٣.pdf" = 3 := by
  refine ⟨?_, by decide, by decide, by decide, by decide, by decide⟩
  intro s
  rcases hs : searchFrom s.data with _ | v
  · right
    refine ⟨?_, by simp [extract_version, hs]⟩
    rintro ⟨a, ds, ext2, ⟨heq, hne, hdig, hex⟩⟩
    have hnone := searchFrom_none_no_match s.data hs a ('_' :: 'v' :: (ds ++ ext2)) heq
    have hsome : matchAt ('_' :: 'v' :: (ds ++ ext2)) = some (digitsToNat ds) :=
      (matchAt_some_iff _ _).2 ⟨ds, ext2, rfl, hne, hdig, hex, rfl⟩
    rw [hnone] at hsome
    exact absurd hsome (by simp)
  · left
    obtain ⟨a, rest, heq, hmatch⟩ := searchFrom_some_match s.data v hs
    obtain ⟨ds, ext2, hrest, hne, hdig, hex, hv⟩ := (matchAt_some_iff _ _).1 hmatch
    refine ⟨a, ds, ext2, ⟨?_, hne, hdig, hex⟩, ?_⟩
    · rw [heq, hrest]
    · simp [extract_version, hs, hv]

/-- Claim C2 counterexample: the filename "file_v0.pdf" matches the
version-suffix pattern with digit run "0", and `extract_version`
returns 0, which is not an integer greater than or equal to 1. -/
theorem extract_version_zero_counterexample :
    extract_version "file_v0.pdf" = 0 ∧
    ¬ (1 ≤ extract_version "file_v0.pdf") := by
  constructor
  · decide
  · decide

/-! ### Chunk metadata and latest-version tagging from `src/rag_engine.py`

A retrieved chunk carries the metadata the engine reads:
`source`, `page`, `category`, `version`, the text content, and the
derived `is_latest` annotation (absent until the tagging loop sets
it; readers default it). The tagging loop in `RAGProvider.query`
first folds the retrieved documents into a dictionary mapping
(source, category) to the largest version seen, then annotates each
document by comparing its version with the dictionary entry. -/

structure Chunk where
  source : String
  page : Option Nat
  category : String
  version : Nat
  content : String
  is_latest : Option Bool := none
deriving DecidableEq, Repr

/-- The Version Key: pair of origin identity and category. -/
def vKey (c : Chunk) : String × String := (c.source, c.category)

/-- One step of the first loop: update the dictionary entry for the
key of one document, exactly as the Python condition
`if key not in latest_versions or version > latest_versions[key]`. -/
def lvStep (m : String × String → Option Nat) (d : Chunk) :
    String × String → Option Nat :=
  fun k =>
    if k = vKey d then
      match m (vKey d) with
      | none => some d.version
      | some v => if d.version > v then some d.version else some v
    else m k

/-- The `latest_versions` dictionary built by the first loop. -/
def latestVersions (docs : List Chunk) : String × String → Option Nat :=
  docs.foldl lvStep (fun _ => none)

/-- The second loop: annotate each document by comparing its version
with the dictionary value at its key (`latest_versions.get(key)`). -/
def tagLatest (docs : List Chunk) : List Chunk :=
  let lv := latestVersions docs
  docs.map (fun d =>
    { d with is_latest := some (decide (some d.version = lv (vKey d))) })

/-- Spec-side: the versions present in the group of a key, within the
retrieved set only. -/
def groupVersions (docs : List Chunk) (k : String × String) : List Nat :=
  (docs.filter (fun d => decide (vKey d = k))).map (fun d => d.version)

/-- Spec-side: the maximum version of a group. -/
def groupMax (docs : List Chunk) (k : String × String) : Nat :=
  (groupVersions docs k).foldl Nat.max 0

/-- Spec-side tagging, written from the words of the specification:
group by Version Key, compute the maximum version of each group, and
mark each chunk latest exactly when its version equals the maximum of
its group. -/
def specTagLatest (docs : List Chunk) : List Chunk :=
  docs.map (fun d =>
    { d with is_latest := some (decide (d.version = groupMax docs (vKey d))) })

/-- The running-maximum step on an optional accumulator, matching the
effect of `lvStep` at the key of the folded document. -/
def omaxF (o : Option Nat) (v : Nat) : Option Nat :=
  match o with
  | none => some v
  | some a => if v > a then some v else some a

lemma lvStep_at_key (m : String × String → Option Nat) (d : Chunk) :
    lvStep m d (vKey d) = omaxF (m (vKey d)) d.version := by
  simp [lvStep, omaxF]

lemma lvStep_off_key (m : String × String → Option Nat) (d : Chunk)
    (k : String × String) (hk : k ≠ vKey d) : lvStep m d k = m k := by
  simp [lvStep, if_neg hk]

lemma foldl_lvStep_apply (docs : List Chunk)
    (m : String × String → Option Nat) (k : String × String) :
    (docs.foldl lvStep m) k = (groupVersions docs k).foldl omaxF (m k) := by
  induction docs generalizing m with
  | nil => simp [groupVersions]
  | cons d ds ih =>
    rw [List.foldl_cons, ih]
    by_cases hk : vKey d = k
    · have h1 : groupVersions (d :: ds) k = d.version :: groupVersions ds k := by
        simp [groupVersions, List.filter_cons, hk]
      rw [h1, List.foldl_cons]
      congr 1
      rw [← hk, lvStep_at_key]
    · have h1 : groupVersions (d :: ds) k = groupVersions ds k := by
        simp [groupVersions, List.filter_cons, hk]
      rw [h1]
      congr 1
      exact lvStep_off_key m d k (fun h => hk h.symm)

lemma omaxF_some (a v : Nat) : omaxF (some a) v = some (Nat.max a v) := by
  show (if v > a then some v else some a) = some (Nat.max a v)
  by_cases h : v > a
  · rw [if_pos h]
    exact congrArg some (Nat.max_eq_right (Nat.le_of_lt h)).symm
  · rw [if_neg h]
    exact congrArg some (Nat.max_eq_left (Nat.le_of_not_lt h)).symm

lemma foldl_omaxF_some (vs : List Nat) (a : Nat) :
    vs.foldl omaxF (some a) = some (vs.foldl Nat.max a) := by
  induction vs generalizing a with
  | nil => simp
  | cons v vs ih =>
    rw [List.foldl_cons, omaxF_some, ih, List.foldl_cons]

lemma latestVersions_eq_groupMax (docs : List Chunk) (k : String × String)
    (hne : groupVersions docs k ≠ []) :
    latestVersions docs k = some (groupMax docs k) := by
  unfold latestVersions groupMax
  rw [foldl_lvStep_apply]
  rcases hg : groupVersions docs k with _ | ⟨v, vs⟩
  · exact absurd hg hne
  · show vs.foldl omaxF (omaxF none v) = some ((v :: vs).foldl Nat.max 0)
    rw [show omaxF none v = some v from rfl, foldl_omaxF_some, List.foldl_cons]
    have h0 : Nat.max 0 v = v := Nat.max_eq_right (Nat.zero_le v)
    rw [h0]

/-- Claim C1: the latest-version tagging of `RAGProvider.query`
coincides with the specification: chunks are grouped by the pair
(origin identity, category); within each group exactly the chunks
whose version equals the group maximum receive `is_latest = true` and
all others receive `is_latest = false`; a chunk alone in its group is
always tagged latest. The grouping ranges only over the list passed
in, that is, over the retrieved set of one query. -/
theorem tagLatest_correct (docs : List Chunk) :
    tagLatest docs = specTagLatest docs ∧
    (∀ d ∈ docs, groupVersions docs (vKey d) = [d.version] →
      { d with is_latest := some true } ∈ tagLatest docs) := by
  have hmain : tagLatest docs = specTagLatest docs := by
    unfold tagLatest specTagLatest
    apply List.map_congr_left
    intro d hd
    have hmem : d.version ∈ groupVersions docs (vKey d) := by
      unfold groupVersions
      exact List.mem_map.mpr ⟨d, List.mem_filter.mpr ⟨hd, by simp⟩, rfl⟩
    have hne : groupVersions docs (vKey d) ≠ [] := List.ne_nil_of_mem hmem
    rw [latestVersions_eq_groupMax docs (vKey d) hne]
    congr 1
    congr 1
    apply decide_eq_decide.mpr
    constructor
    · intro h
      exact Option.some_injective Nat h
    · intro h
      exact congrArg some h
  refine ⟨hmain, ?_⟩
  intro d hd hsingle
  have hmax : groupMax docs (vKey d) = d.version := by
    unfold groupMax
    rw [hsingle]
    simp [Nat.max_eq_right (Nat.zero_le d.version)]
  rw [hmain]
  unfold specTagLatest
  refine List.mem_map.mpr ⟨d, hd, ?_⟩
  rw [hmax]
  simp

/-! ### The retrieval engine: `RAGProvider.query` from `src/rag_engine.py`

The vector index is an external collaborator.  It is modelled as the
list of persisted entries together with an opaque similarity score;
a search filters the entries by the optional category (the Chroma
`filter` argument the code passes), ranks them by descending score,
and returns the first `k`.  The language model handle is either
absent (`none`, the model artifact was not found) or a function from
the prompt to the generated text; a raised exception is modelled as
the `Except.error` case.  The query orchestrator below is a direct
transcription of `RAGProvider.query`; besides the result it records
whether the retriever was invoked, which prompt reached the model,
and which branch was taken. -/

structure VectorDB where
  entries : List Chunk
  score : String → Chunk → Nat

/-- Descending-score insertion used to model the opaque ranking. -/
def insertRanked (s : Chunk → Nat) (c : Chunk) : List Chunk → List Chunk
  | [] => [c]
  | x :: xs => if s x ≤ s c then c :: x :: xs else x :: insertRanked s c xs

def rankDesc (s : Chunk → Nat) (l : List Chunk) : List Chunk :=
  l.foldr (insertRanked s) []

lemma mem_insertRanked (s : Chunk → Nat) (c d : Chunk) (l : List Chunk) :
    d ∈ insertRanked s c l ↔ d = c ∨ d ∈ l := by
  induction l with
  | nil => simp [insertRanked]
  | cons x xs ih =>
    unfold insertRanked
    by_cases h : s x ≤ s c
    · simp [if_pos h]
    · simp [if_neg h, ih]
      tauto

lemma mem_rankDesc (s : Chunk → Nat) (d : Chunk) (l : List Chunk) :
    d ∈ rankDesc s l ↔ d ∈ l := by
  induction l with
  | nil => simp [rankDesc]
  | cons x xs ih =>
    unfold rankDesc at ih ⊢
    rw [List.foldr_cons, mem_insertRanked, ih]
    simp

/-- Similarity search against the index: restrict to the category
filter when one is passed, rank, return the top `k`. -/
def dbSearch (db : VectorDB) (q : String) (k : Nat) (filt : Option String) :
    List Chunk :=
  let pool := match filt with
    | none => db.entries
    | some c => db.entries.filter (fun e => decide (e.category = c))
  (rankDesc (db.score q) pool).take k

structure QueryResult where
  result : String
  source_documents : List Chunk
deriving DecidableEq, Repr

inductive Branch
  | noLLM
  | directChat
  | noChain
  | rag
deriving DecidableEq, Repr

structure QueryOutcome where
  out : Except String QueryResult
  retrieverInvoked : Bool
  promptUsed : Option String
  branch : Branch

structure RAGProvider where
  llm : Option (String → Except String String)
  chainReady : Bool
  db : VectorDB

/-- Python string truthiness for the optional category argument. -/
def pyTruthy : Option String → Bool
  | none => false
  | some s => !(s == "")

/-- Python `str.lower()` restricted to the ASCII range the code
compares against. -/
def pyLower (s : String) : String := ⟨s.data.map Char.toLower⟩

def ragContext (docs : List Chunk) : String :=
  String.intercalate "\n\n" (docs.map (fun d => d.content))

/-- The fixed instruction template of the chain, with the retrieved
context and the question substituted (the apostrophes of the source
text are written as the escape for code point 0x27). -/
def ragPrompt (docs : List Chunk) (q : String) : String :=
  "Use the following pieces of context to answer the question at the end. \n" ++
  "If you don\x27t know the answer, just say that you don\x27t know, " ++
  "don\x27t try to make up an answer.\n" ++
  "Provide a detailed and helpful answer based on the context.\n\nContext: " ++
  ragContext docs ++ "\n\nQuestion: " ++ q ++ "\n\nAnswer:"

/-- One `RetrievalQA` chain invocation: retrieve, prompt the model,
and on success attach the tagged source documents (the code only runs
the tagging loop when the retrieved list is nonempty). A model
exception propagates out of the chain uncaught. -/
def chainInvoke (db : VectorDB) (f : String → Except String String)
    (q : String) (filt : Option String) : QueryOutcome :=
  let docs := dbSearch db q 10 filt
  let prompt := ragPrompt docs q
  match f prompt with
  | Except.error e =>
    { out := Except.error e
      retrieverInvoked := true
      promptUsed := some prompt
      branch := Branch.rag }
  | Except.ok ans =>
    let tagged := if docs.isEmpty then docs else tagLatest docs
    { out := Except.ok { result := ans, source_documents := tagged }
      retrieverInvoked := true
      promptUsed := some prompt
      branch := Branch.rag }

/-- `RAGProvider.query`: early return when the model handle is
absent; the reserved sentinel category (case-insensitive) selects the
direct-chat branch, whose model exception is caught; otherwise the
retrieval branch runs, category-scoped when a truthy category was
given. -/
def query (p : RAGProvider) (query_text : String) (category : Option String) :
    QueryOutcome :=
  match p.llm with
  | none =>
    { out := Except.ok
        { result := "Error: LLM not initialized (model not found?)"
          source_documents := [] }
      retrieverInvoked := false
      promptUsed := none
      branch := Branch.noLLM }
  | some f =>
    if pyTruthy category && (pyLower (category.getD "") == "noting") then
      match f query_text with
      | Except.ok resp =>
        { out := Except.ok { result := resp, source_documents := [] }
          retrieverInvoked := false
          promptUsed := some query_text
          branch := Branch.directChat }
      | Except.error e =>
        { out := Except.ok
            { result := "Error calling LLM: " ++ e
              source_documents := [] }
          retrieverInvoked := false
          promptUsed := some query_text
          branch := Branch.directChat }
    else if !p.chainReady then
      { out := Except.ok
          { result := "Error: QA chain not initialized"
            source_documents := [] }
        retrieverInvoked := false
        promptUsed := none
        branch := Branch.noChain }
    else if pyTruthy category then
      chainInvoke p.db f query_text (some (category.getD ""))
    else
      chainInvoke p.db f query_text none

lemma pyLower_noting_truthy (c : String) (h : pyLower c = "noting") :
    pyTruthy (some c) = true := by
  by_cases hc : c = ""
  · subst hc
    exact absurd h (by decide)
  · simp [pyTruthy, hc]

lemma mem_tagLatest_category (docs : List Chunk) (d : Chunk)
    (h : d ∈ tagLatest docs) : ∃ e ∈ docs, d.category = e.category := by
  unfold tagLatest at h
  obtain ⟨e, he, heq⟩ := List.mem_map.mp h
  exact ⟨e, he, by rw [← heq]⟩

/-- Claim C3: a query whose category equals the reserved sentinel
"noting" under case-insensitive comparison never invokes the
retriever and yields a result with an empty source list; when the
model handle is loaded, the branch taken is the direct chat, and the
prompt sent to the model is the raw question with no retrieved
context. -/
theorem query_noting_direct (p : RAGProvider) (qt c : String)
    (h : pyLower c = "noting") :
    (query p qt (some c)).retrieverInvoked = false ∧
    (∃ r, (query p qt (some c)).out = Except.ok r ∧ r.source_documents = []) ∧
    (p.llm ≠ none →
      (query p qt (some c)).branch = Branch.directChat ∧
      (query p qt (some c)).promptUsed = some qt) := by
  have htr : pyTruthy (some c) = true := pyLower_noting_truthy c h
  cases hl : p.llm with
  | none =>
    refine ⟨?_, ⟨{ result := "Error: LLM not initialized (model not found?)"
                   source_documents := [] }, ?_, rfl⟩,
      fun hne => absurd rfl hne⟩ <;> simp [query, hl]
  | some f =>
    cases hf : f qt with
    | ok resp =>
      refine ⟨?_, ⟨{ result := resp, source_documents := [] }, ?_, rfl⟩,
        fun _ => ⟨?_, ?_⟩⟩ <;> simp [query, hl, htr, h, hf]
    | error e =>
      refine ⟨?_, ⟨{ result := "Error calling LLM: " ++ e
                     source_documents := [] }, ?_, rfl⟩,
        fun _ => ⟨?_, ?_⟩⟩ <;> simp [query, hl, htr, h, hf]

/-- Claim C4: when the model handle is absent every query, whatever
its category, returns the well-formed result whose answer explains
the unavailability and whose source list is empty; no fault is
propagated and the retriever is not touched. -/
theorem query_model_unavailable (p : RAGProvider) (qt : String)
    (c : Option String) (h : p.llm = none) :
    (query p qt c).out = Except.ok
      { result := "Error: LLM not initialized (model not found?)"
        source_documents := [] } ∧
    (query p qt c).retrieverInvoked = false := by
  constructor <;> simp [query, h]

/-- Claim C9: the empty-string category is falsy in the code, so it
is treated exactly as an omitted category: the whole query outcome is
identical, in particular the direct-chat branch is not taken and the
retrieval is unscoped. -/
theorem query_empty_category (p : RAGProvider) (qt : String) :
    query p qt (some "") = query p qt none := by
  cases hl : p.llm <;> simp [query, pyTruthy]

/-- Claim C10: in the direct-chat branch with the model loaded, a
model exception is caught: the query still returns a well-formed
result whose answer describes the error and whose source list is
empty, and the retriever is never invoked. -/
theorem query_direct_chat_error (p : RAGProvider) (qt c e : String)
    (f : String → Except String String)
    (hl : p.llm = some f) (hc : pyLower c = "noting")
    (he : f qt = Except.error e) :
    (query p qt (some c)).out = Except.ok
      { result := "Error calling LLM: " ++ e
        source_documents := [] } ∧
    (query p qt (some c)).retrieverInvoked = false := by
  have htr : pyTruthy (some c) = true := pyLower_noting_truthy c hc
  constructor <;> simp [query, hl, htr, hc, he]

/-- Claim C5: with a truthy, non-sentinel category, every chunk in a
successful query result carries exactly the requested category
(case-sensitive equality), and when no index entry matches the
category the source list is empty rather than an error. -/
theorem query_category_scoped (p : RAGProvider) (qt c : String)
    (r : QueryResult)
    (hns : pyLower c ≠ "noting") (hne : c ≠ "")
    (hok : (query p qt (some c)).out = Except.ok r) :
    (∀ d ∈ r.source_documents, d.category = c) ∧
    ((∀ e ∈ p.db.entries, e.category ≠ c) → r.source_documents = []) := by
  cases hl : p.llm with
  | none =>
    simp only [query, hl] at hok
    simp only [Except.ok.injEq] at hok
    rw [← hok]
    exact ⟨by simp, fun _ => by simp⟩
  | some f =>
    have htr : pyTruthy (some c) = true := by simp [pyTruthy, hne]
    cases hcr : p.chainReady with
    | false =>
      simp only [query, hl, htr, hcr] at hok
      simp only [Option.getD_some] at hok
      rw [if_neg (by simp [hns]), if_pos (by simp)] at hok
      simp only [Except.ok.injEq] at hok
      rw [← hok]
      exact ⟨by simp, fun _ => by simp⟩
    | true =>
      simp only [query, hl, htr, hcr] at hok
      simp only [Option.getD_some] at hok
      rw [if_neg (by simp [hns]), if_neg (by simp), if_pos trivial] at hok
      simp only [chainInvoke] at hok
      cases hf : f (ragPrompt (dbSearch p.db qt 10 (some c)) qt) with
      | error e =>
        rw [hf] at hok
        simp at hok
      | ok ans =>
        rw [hf] at hok
        simp only [Except.ok.injEq] at hok
        have hdmem : ∀ d ∈ dbSearch p.db qt 10 (some c), d.category = c := by
          intro d hd
          unfold dbSearch at hd
          have h1 := List.mem_of_mem_take hd
          have h2 := (mem_rankDesc _ _ _).mp h1
          have h3 := List.mem_filter.mp h2
          simpa using h3.2
        constructor
        · intro d hd
          rw [← hok] at hd
          simp only at hd
          by_cases hemp : (dbSearch p.db qt 10 (some c)).isEmpty
          · rw [if_pos hemp] at hd
            exact hdmem d hd
          · rw [if_neg hemp] at hd
            obtain ⟨e2, he2, hcat⟩ := mem_tagLatest_category _ d hd
            rw [hcat]
            exact hdmem e2 he2
        · intro hnone
          have hfil : p.db.entries.filter (fun e2 => decide (e2.category = c)) = [] := by
            rw [List.filter_eq_nil_iff]
            intro e2 he2
            simpa using hnone e2 he2
          have hD : dbSearch p.db qt 10 (some c) = [] := by
            show (rankDesc (p.db.score qt)
              (p.db.entries.filter (fun e2 => decide (e2.category = c)))).take 10 = []
            rw [hfil]
            rfl
          rw [← hok]
          simp [hD]

/-! ### The HTTP response construction: `query_rag` from `src/api.py`

The endpoint forwards the request to the engine and builds the
response: the answer string, and one *string* per retrieved source
document, produced by an f-string that renders the source path, page
(defaulting to 0), category, version and latest flag (defaulting to
true). An engine exception becomes an HTTP 500 error. -/

/-- The source entry f-string of `query_rag`. -/
def formatSource (d : Chunk) : String :=
  d.source ++ " (Page " ++ toString (d.page.getD 0) ++ ", Category: " ++
    d.category ++ ", Version: " ++ toString d.version ++ ")" ++
    (if d.is_latest.getD true then " [LATEST]" else " [OLD VERSION]")

structure QueryRequest where
  query : String
  category : Option String

structure QueryResponse where
  answer : String
  sources : List String
deriving DecidableEq, Repr

/-- `query_rag`: call the engine, render each source document to a
string, or surface a 500 error when the engine raised. -/
def query_rag (p : RAGProvider) (req : QueryRequest) :
    Except (Nat × String) QueryResponse :=
  match (query p req.query req.category).out with
  | Except.error e => Except.error (500, e)
  | Except.ok r =>
    Except.ok { answer := r.result
                sources := r.source_documents.map formatSource }

/-- Claim C8 as stated: the source entries of the response are
structured records carrying origin_path, page, category, version and
is_latest fields, that is, each of the five fields is recoverable
from the entry. -/
def SourcesCarryFields : Prop :=
  ∃ (gSource : String → String) (gPage : String → Nat)
    (gCat : String → String) (gVer : String → Nat)
    (gLatest : String → Bool),
    ∀ d : Chunk,
      gSource (formatSource d) = d.source ∧
      gPage (formatSource d) = d.page.getD 0 ∧
      gCat (formatSource d) = d.category ∧
      gVer (formatSource d) = d.version ∧
      gLatest (formatSource d) = d.is_latest.getD true

/-- Claim C8 counterexample: the response renders each source as one
flat string, not as a structured record; two concrete chunks that
differ in their page (and in source and category) render to the same
entry string, so no field can be recovered from an entry. -/
theorem query_rag_sources_not_records : ¬ SourcesCarryFields := by
  rintro ⟨g1, g2, g3, g4, g5, hg⟩
  have h1 := (hg { source := "S (Page 5, Category: C, Version: 3) [LATEST] S2"
                   page := some 1
                   category := "C2"
                   version := 4
                   content := ""
                   is_latest := some true }).2.1
  have h2 := (hg { source := "S"
                   page := some 5
                   category := "C, Version: 3) [LATEST] S2 (Page 1, Category: C2"
                   version := 4
                   content := ""
                   is_latest := some true }).2.1
  have hfmt : formatSource
      { source := "S (Page 5, Category: C, Version: 3) [LATEST] S2"
        page := some 1
        category := "C2"
        version := 4
        content := ""
        is_latest := some true } = formatSource
      { source := "S"
        page := some 5
        category := "C, Version: 3) [LATEST] S2 (Page 1, Category: C2"
        version := 4
        content := ""
        is_latest := some true } := by decide
  rw [hfmt] at h1
  rw [h1] at h2
  simp at h2

/-- Claim C8 (amended): for every request, a successful response is
the engine answer together with one string per retrieved source
document, each rendered by the fixed format from that document's
origin path, page, category, version and latest flag; in particular
the response carries exactly as many source entries as the engine
returned source documents. -/
theorem query_rag_shape (p : RAGProvider) (req : QueryRequest)
    (resp : QueryResponse) (h : query_rag p req = Except.ok resp) :
    ∃ r, (query p req.query req.category).out = Except.ok r ∧
      resp.answer = r.result ∧
      resp.sources = r.source_documents.map formatSource ∧
      resp.sources.length = r.source_documents.length := by
  unfold query_rag at h
  cases ho : (query p req.query req.category).out with
  | error e =>
    rw [ho] at h
    simp at h
  | ok r =>
    rw [ho] at h
    simp only [Except.ok.injEq] at h
    refine ⟨r, rfl, ?_, ?_, ?_⟩ <;> simp [← h]

/-! ### Document loading and ingestion from `src/ingest.py`

The filesystem is modelled as the data `load_documents` observes: the
files directly under the source directory, and the files of each
immediate subdirectory (whose name is the category). Each file
carries its extension kind and the outcome of its parser — a list of
page-annotated texts, or an error for a corrupt file (the Python
`except` block logs and skips it). Unsupported extensions are never
globbed. The splitter is the external `RecursiveCharacterTextSplitter`,
passed as a function parameter. `ingest_documents` returns `None` in
Python on both paths; the model records that returned value together
with the optional index write, so that the effect on a pre-existing
index can be stated. -/

inductive FileKind
  | pdf
  | docx
  | txt
  | other
deriving DecidableEq, Repr

structure PageDoc where
  content : String
  page : Option Nat
deriving DecidableEq, Repr

structure FileEntry where
  name : String
  kind : FileKind
  parsed : Except String (List PageDoc)

structure Document where
  content : String
  page : Option Nat
  source : String
  category : String
  version : Nat
deriving DecidableEq, Repr

structure FS where
  sourceDir : String
  dirExists : Bool
  rootFiles : List FileEntry
  subdirs : List (String × List FileEntry)

/-- Load one file: on parser success, tag every produced document
with the category, the path, and the version extracted from the
filename; on failure contribute nothing (the `except` block). -/
def loadFile (dir cat : String) (f : FileEntry) : List Document :=
  match f.parsed with
  | Except.error _ => []
  | Except.ok pds =>
    pds.map (fun pd =>
      { content := pd.content
        page := pd.page
        source := dir ++ "/" ++ f.name
        category := cat
        version := extract_version f.name })

/-- One glob pass: the files of one extension kind, in order. -/
def scanKind (k : FileKind) (dir cat : String) (files : List FileEntry) :
    List Document :=
  (files.filter (fun f => f.kind == k)).flatMap (loadFile dir cat)

/-- The three glob passes the code runs over one directory. -/
def scanDir (dir cat : String) (files : List FileEntry) : List Document :=
  scanKind FileKind.pdf dir cat files ++
  scanKind FileKind.docx dir cat files ++
  scanKind FileKind.txt dir cat files

/-- `load_documents`: create the directory (and return nothing) when
it is absent; otherwise scan the root files under the General
category and then every subdirectory under its own name. -/
def load_documents (fs : FS) : List Document × FS :=
  if fs.dirExists = false then ([], { fs with dirExists := true })
  else
    (scanDir fs.sourceDir "General" fs.rootFiles ++
      fs.subdirs.flatMap (fun sd =>
        scanDir (fs.sourceDir ++ "/" ++ sd.1) sd.1 sd.2),
     fs)

/-- A file whose parser succeeded. -/
def parseOk (f : FileEntry) : Bool :=
  match f.parsed with
  | Except.ok _ => true
  | Except.error _ => false

/-- The same filesystem with every failing file removed. -/
def dropFailing (fs : FS) : FS :=
  { fs with rootFiles := fs.rootFiles.filter parseOk
            subdirs := fs.subdirs.map (fun sd => (sd.1, sd.2.filter parseOk)) }

lemma loadFile_of_fail (dir cat : String) (f : FileEntry)
    (h : parseOk f = false) : loadFile dir cat f = [] := by
  unfold parseOk at h
  unfold loadFile
  cases hp : f.parsed with
  | ok pds => rw [hp] at h; simp at h
  | error e => rfl

lemma scanKind_dropFailing (k : FileKind) (dir cat : String)
    (files : List FileEntry) :
    scanKind k dir cat files = scanKind k dir cat (files.filter parseOk) := by
  unfold scanKind
  induction files with
  | nil => rfl
  | cons f fsl ih =>
    cases hok : parseOk f with
    | true =>
      cases hkind : (f.kind == k) with
      | true => simp [List.filter_cons, hok, hkind, ih]
      | false => simp [List.filter_cons, hok, hkind, ih]
    | false =>
      cases hkind : (f.kind == k) with
      | true =>
        simp [List.filter_cons, hok, hkind, ih,
          loadFile_of_fail dir cat f hok]
      | false => simp [List.filter_cons, hok, hkind, ih]

lemma scanDir_dropFailing (dir cat : String) (files : List FileEntry) :
    scanDir dir cat files = scanDir dir cat (files.filter parseOk) := by
  unfold scanDir
  rw [← scanKind_dropFailing, ← scanKind_dropFailing, ← scanKind_dropFailing]

lemma mem_scanDir_of_kind (dir cat : String) (files : List FileEntry)
    (f : FileEntry) (hf : f ∈ files) (hk : f.kind ≠ FileKind.other)
    (d : Document) (hd : d ∈ loadFile dir cat f) :
    d ∈ scanDir dir cat files := by
  unfold scanDir
  have hmem : ∀ k2, f.kind = k2 → d ∈ scanKind k2 dir cat files := by
    intro k2 hk2
    unfold scanKind
    refine List.mem_flatMap.mpr ⟨f, ?_, hd⟩
    exact List.mem_filter.mpr ⟨hf, by simp [hk2]⟩
  cases hkind : f.kind with
  | pdf => simp [List.mem_append, hmem _ hkind]
  | docx => simp [List.mem_append, hmem _ hkind]
  | txt => simp [List.mem_append, hmem _ hkind]
  | other => exact absurd hkind hk

/-- Claim C7: the loader never aborts on a parse failure — its output
is identical to the output on the filesystem with every failing file
removed; a missing source directory is created and yields an empty
result rather than an error; and every document of every parsable
file of a supported kind (at the root or in a category subdirectory)
is present in the output. -/
theorem load_documents_resilient (fs : FS) :
    ((load_documents fs).1 = (load_documents (dropFailing fs)).1) ∧
    (fs.dirExists = false →
      load_documents fs = ([], { fs with dirExists := true })) ∧
    (fs.dirExists = true →
      ∀ f ∈ fs.rootFiles, f.kind ≠ FileKind.other →
        ∀ d ∈ loadFile fs.sourceDir "General" f, d ∈ (load_documents fs).1) ∧
    (fs.dirExists = true →
      ∀ sd ∈ fs.subdirs, ∀ f ∈ sd.2, f.kind ≠ FileKind.other →
        ∀ d ∈ loadFile (fs.sourceDir ++ "/" ++ sd.1) sd.1 f,
          d ∈ (load_documents fs).1) := by
  refine ⟨?_, ?_, ?_, ?_⟩
  · cases hex : fs.dirExists with
    | false =>
      unfold load_documents
      rw [if_pos (by simp [hex]), if_pos (by simp [dropFailing, hex])]
    | true =>
      unfold load_documents
      rw [if_neg (by simp [hex]), if_neg (by simp [dropFailing, hex])]
      simp only [dropFailing]
      rw [← scanDir_dropFailing]
      congr 1
      rw [List.flatMap_map]
      apply List.flatMap_congr
      intro sd _
      show scanDir (fs.sourceDir ++ "/" ++ sd.1) sd.1 sd.2 =
        scanDir (fs.sourceDir ++ "/" ++ sd.1) sd.1 (sd.2.filter parseOk)
      exact scanDir_dropFailing _ _ _
  · intro hex
    unfold load_documents
    rw [if_pos (by simp [hex])]
  · intro hex f hf hk d hd
    unfold load_documents
    rw [if_neg (by simp [hex])]
    simp only [List.mem_append]
    exact Or.inl (mem_scanDir_of_kind _ _ _ f hf hk d hd)
  · intro hex sd hsd f hf hk d hd
    unfold load_documents
    rw [if_neg (by simp [hex])]
    simp only [List.mem_append]
    refine Or.inr (List.mem_flatMap.mpr ⟨sd, hsd, ?_⟩)
    exact mem_scanDir_of_kind _ _ _ f hf hk d hd

/-- Observable effect of one `ingest_documents` run: the Python
return value (always `None` in the code: the zero-document branch is
a bare `return`, and the success path falls off the end of the
function), and the optional index write. -/
structure IngestOutcome where
  returned : Option Nat
  written : Option (List Chunk)
deriving DecidableEq, Repr

/-- `ingest_documents`: load, and when nothing was found print and
return; otherwise split the documents and write the chunks to the
index. The splitter and embedding are external and passed in. -/
def ingest_documents (fs : FS) (split : List Document → List Chunk) :
    IngestOutcome :=
  let documents := (load_documents fs).1
  if documents.isEmpty then { returned := none, written := none }
  else { returned := none, written := some (split documents) }

/-- Effect of the run on a pre-existing index: no write leaves it
untouched; a write adds the produced chunks. -/
def applyIngest (idx : List Chunk) (o : IngestOutcome) : List Chunk :=
  match o.written with
  | none => idx
  | some t => idx ++ t

/-- Concrete empty source tree for the ingestion counterexample. -/
def wEmptyFS : FS :=
  { sourceDir := "source_documents"
    dirExists := true
    rootFiles := []
    subdirs := [] }

/-- Claim C6 counterexample: on an empty source tree the code does
not return a zero chunk count — it returns no value at all (`None`),
because neither path of `ingest_documents` returns a number. -/
theorem ingest_no_count_counterexample :
    (ingest_documents wEmptyFS (fun _ => [])).returned = none ∧
    ¬ ((ingest_documents wEmptyFS (fun _ => [])).returned = some 0) := by
  constructor
  · rfl
  · decide

/-- Claim C6 (amended): `ingest_documents` returns no chunk count
(its Python return value is always `None`); when the loader finds
zero documents it performs no index write at all and leaves any
pre-existing index unchanged; when documents are found it writes
exactly the chunks the splitter produced from them. -/
theorem ingest_zero_no_write (fs : FS) (split : List Document → List Chunk)
    (idx : List Chunk) :
    (ingest_documents fs split).returned = none ∧
    ((load_documents fs).1 = [] →
      (ingest_documents fs split).written = none ∧
      applyIngest idx (ingest_documents fs split) = idx) ∧
    ((load_documents fs).1 ≠ [] →
      (ingest_documents fs split).written =
        some (split (load_documents fs).1)) := by
  refine ⟨?_, ?_, ?_⟩
  · cases h : (load_documents fs).1.isEmpty <;> simp [ingest_documents, h]
  · intro h
    have hemp : (load_documents fs).1.isEmpty = true := by simp [h]
    constructor <;> simp [ingest_documents, applyIngest, hemp]
  · intro h
    have hemp : (load_documents fs).1.isEmpty = false := by
      simpa [List.isEmpty_iff] using h
    simp [ingest_documents, hemp]

/-! ### Concrete fixtures used by the witnesses -/

def wLeaveChunk : Chunk :=
  { source := "docs/Leave/leave_v1.pdf"
    page := some 0
    category := "Leave"
    version := 1
    content := "leave policy text" }

def wGeneralChunk : Chunk :=
  { source := "docs/misc.txt"
    page := none
    category := "General"
    version := 1
    content := "misc" }

def wDB : VectorDB :=
  { entries := [wLeaveChunk, wGeneralChunk]
    score := fun _ _ => 0 }

def wOkLLM : String → Except String String := fun _ => Except.ok "ans"

def wErrLLM : String → Except String String := fun _ => Except.error "boom"

def wProvider : RAGProvider :=
  { llm := some wOkLLM, chainReady := true, db := wDB }

def wNoModel : RAGProvider :=
  { llm := none, chainReady := false, db := wDB }

def wErrProvider : RAGProvider :=
  { llm := some wErrLLM, chainReady := true, db := wDB }

def wV1 : Chunk :=
  { source := "docs/Leave/leave.pdf"
    page := some 0
    category := "Leave"
    version := 1
    content := "a" }

def wV2 : Chunk := { wV1 with version := 2 }

def wV3 : Chunk := { wV1 with version := 3 }

def wSolo : Chunk :=
  { source := "docs/Medical/med.pdf"
    page := some 1
    category := "Medical"
    version := 5
    content := "m" }

def wDocs : List Chunk := [wV1, wV2, wV3, wSolo]

def wGoodTxt : FileEntry :=
  { name := "good.txt"
    kind := FileKind.txt
    parsed := Except.ok [{ content := "hello", page := none }] }

def wBadPdf : FileEntry :=
  { name := "bad.pdf"
    kind := FileKind.pdf
    parsed := Except.error "corrupt file" }

def wLeavePdf : FileEntry :=
  { name := "leave_v2.pdf"
    kind := FileKind.pdf
    parsed := Except.ok [{ content := "leave body", page := some 0 }] }

def wFS : FS :=
  { sourceDir := "docs"
    dirExists := true
    rootFiles := [wGoodTxt, wBadPdf]
    subdirs := [("Leave", [wLeavePdf])] }

/-- Witness for claim C1 at a concrete retrieved set: versions 1, 2
and 3 of one document plus a lone chunk of another; the code tagging
equals the specification tagging there, and the lone chunk is tagged
latest. -/
theorem tagLatest_correct_witness :
    tagLatest wDocs = specTagLatest wDocs ∧
    { wSolo with is_latest := some true } ∈ tagLatest wDocs := by
  have h := tagLatest_correct wDocs
  exact ⟨h.1, h.2 wSolo (by decide) (by decide)⟩

/-- Witness for claim C2: the amended theorem evaluated at
"policy_v3.pdf". -/
theorem extract_version_amended_witness :
    extract_version "policy_v3.pdf" = 3 :=
  extract_version_amended.2.1

/-- Witness for claim C3 at a concrete provider and the sentinel in
mixed case. -/
theorem query_noting_direct_witness :
    (query wProvider "hi" (some "NoTing")).retrieverInvoked = false ∧
    (query wProvider "hi" (some "NoTing")).branch = Branch.directChat := by
  have h := query_noting_direct wProvider "hi" "NoTing" (by decide)
  exact ⟨h.1, (h.2.2 (by simp [wProvider])).1⟩

/-- Witness for claim C4 at a provider without a model handle. -/
theorem query_model_unavailable_witness :
    (query wNoModel "q" (some "Leave")).out = Except.ok
      { result := "Error: LLM not initialized (model not found?)"
        source_documents := [] } ∧
    (query wNoModel "q" (some "Leave")).retrieverInvoked = false :=
  query_model_unavailable wNoModel "q" (some "Leave") rfl

/-- Witness for claim C5 at a concrete two-category index. -/
theorem query_category_scoped_witness :
    ({ wLeaveChunk with is_latest := some true } : Chunk).category = "Leave" := by
  have h := query_category_scoped wProvider "q" "Leave"
    { result := "ans"
      source_documents := [{ wLeaveChunk with is_latest := some true }] }
    (by decide) (by decide) rfl
  exact h.1 _ (List.mem_cons_self _ _)

/-- Witness for claim C6: the amended theorem at the empty source
tree, with a pre-existing one-chunk index left untouched. -/
theorem ingest_zero_no_write_witness :
    (ingest_documents wEmptyFS (fun _ => [])).written = none ∧
    applyIngest [wLeaveChunk] (ingest_documents wEmptyFS (fun _ => [])) =
      [wLeaveChunk] := by
  have h := ingest_zero_no_write wEmptyFS (fun _ => []) [wLeaveChunk]
  exact h.2.1 (by decide)

/-- Witness for claim C7 at a tree with one corrupt file: the loader
output equals the output without the corrupt file, and the parsable
root file's document is loaded. -/
theorem load_documents_resilient_witness :
    (load_documents wFS).1 = (load_documents (dropFailing wFS)).1 ∧
    ({ content := "hello"
       page := none
       source := "docs/good.txt"
       category := "General"
       version := 1 } : Document) ∈ (load_documents wFS).1 := by
  have h := load_documents_resilient wFS
  refine ⟨h.1, ?_⟩
  exact h.2.2.1 rfl wGoodTxt (List.mem_cons_self _ _) (by decide) _ (by decide)

/-- Witness for claim C8: the amended theorem at a concrete request,
pinning the rendered response. -/
theorem query_rag_shape_witness :
    query_rag wProvider { query := "q", category := some "Leave" } =
      Except.ok
        { answer := "ans"
          sources := [formatSource { wLeaveChunk with is_latest := some true }] } := by
  obtain ⟨r, h1, h2, h3, h4⟩ := query_rag_shape wProvider
    { query := "q", category := some "Leave" }
    { answer := "ans"
      sources := [formatSource { wLeaveChunk with is_latest := some true }] }
    rfl
  rfl

/-- Witness for claim C9 at a concrete provider. -/
theorem query_empty_category_witness :
    query wProvider "hi" (some "") = query wProvider "hi" none :=
  query_empty_category wProvider "hi"

/-- Witness for claim C10 at a provider whose model raises. -/
theorem query_direct_chat_error_witness :
    (query wErrProvider "q" (some "Noting")).out = Except.ok
      { result := "Error calling LLM: " ++ "boom"
        source_documents := [] } ∧
    (query wErrProvider "q" (some "Noting")).retrieverInvoked = false :=
  query_direct_chat_error wErrProvider "q" "Noting" "boom" wErrLLM rfl
    (by decide) rfl
